import Mathlib

/-!
# Verification of the claudette effect/tool/agent core

A shallow embedding of the effect core (`src/action.ts`), the tool
abstraction (`tool.ts`), the navigation tools (`navigation.ts`), the model
dispatch (`anthropic.ts`) and the agent loop (`agent.ts`) of the claudette
VS Code extension, together with proofs about the embedded definitions.

Modelling conventions:
* A TypeScript `Action<A>` is a function from an editor handle to a promise
  of `ActionResult<A>` (`success`/`cancelled`) which may also reject with a
  thrown `Error`.  We embed it as a state-passing function
  `σ → σ × ExecResult A`, where `ExecResult` has a third constructor
  `failure msg` for promise rejection, and the state `σ` carries both the
  mutable editor environment and the mutable fields of the `Agent` object
  (which the TypeScript closures mutate in place).
* External platform capabilities (VS Code buffer/cursor/input-box, the
  Anthropic model backend, the per-language directory-context scrapers) are
  out of the specified core; they are represented as oracle fields of the
  environment state.
* `Promise.all` concurrency inside `sequence` is embedded by running the
  actions in argument order and then combining all of their results exactly
  as the source does (a rejection wins, otherwise any cancellation cancels
  the whole group, otherwise all values are collected in argument order).
-/

set_option linter.unusedVariables false

namespace Claudette

universe u v w

/-- Result of one executed effect.  `success`/`cancelled` are the two
variants of the TypeScript `ActionResult<A>`; `failure msg` represents a
rejected promise (a thrown `Error` with message `msg`), which the source
leaves as an exception outside of `ActionResult`. -/
inductive ExecResult (A : Type u) where
  | success (value : A)
  | cancelled
  | failure (msg : String)
deriving DecidableEq

/-- The `Action<A>` class of `src/action.ts`: a lazily executed computation
against the (editor + agent) state.  `run` is the private `run` field;
executing never happens at construction time. -/
structure Action (σ : Type u) (A : Type v) where
  run : σ → σ × ExecResult A

/-- `pure(x)` (via `lift`/`liftEditor` in the source): always succeeds with
`x` and touches nothing. -/
def Action.pure {σ : Type u} {A : Type v} (x : A) : Action σ A :=
  ⟨fun s => (s, .success x)⟩

/-- `cancel()` — an effect that always resolves to `Cancelled`. -/
def Action.cancel {σ : Type u} {A : Type v} : Action σ A :=
  ⟨fun s => (s, .cancelled)⟩

/-- `fail(message)` — an effect whose execution always throws
`new Error(message)`. -/
def Action.fail {σ : Type u} {A : Type v} (msg : String) : Action σ A :=
  ⟨fun s => (s, .failure msg)⟩

/-- `Action.bind` (monadic `>>=`): runs the receiver; short-circuits on
cancellation without calling `f`; a thrown error propagates. -/
def Action.bind {σ : Type u} {A B : Type v} (a : Action σ A) (f : A → Action σ B) :
    Action σ B :=
  ⟨fun s =>
    match a.run s with
    | (s1, .success x) => (f x).run s1
    | (s1, .cancelled) => (s1, .cancelled)
    | (s1, .failure m) => (s1, .failure m)⟩

/-- `Action.map` (functor map): transforms a successful value in place;
short-circuits on cancellation without calling `f`. -/
def Action.map {σ : Type u} {A B : Type v} (a : Action σ A) (f : A → B) :
    Action σ B :=
  ⟨fun s =>
    match a.run s with
    | (s1, .success x) => (s1, .success (f x))
    | (s1, .cancelled) => (s1, .cancelled)
    | (s1, .failure m) => (s1, .failure m)⟩

/-- `Action.or`: if the receiver cancels or throws, defer to `other`. -/
def Action.or {σ : Type u} {A : Type v} (a other : Action σ A) : Action σ A :=
  ⟨fun s =>
    match a.run s with
    | (s1, .success x) => (s1, .success x)
    | (s1, .cancelled) => other.run s1
    | (s1, .failure _) => other.run s1⟩

/-- `Action.sideEffect(f)`: observes a successful value without altering it.
In the source `f : A → void` performs its effects by mutating captured
objects (e.g. the agent's history array); here that mutation is the explicit
state transformer `f : A → σ → σ`. -/
def Action.sideEffect {σ : Type u} {A : Type v} (a : Action σ A) (f : A → σ → σ) :
    Action σ A :=
  ⟨fun s =>
    match a.run s with
    | (s1, .success x) => (f x s1, .success x)
    | (s1, .cancelled) => (s1, .cancelled)
    | (s1, .failure m) => (s1, .failure m)⟩

/-- `Action.debug(message?)`: a `sideEffect` that only logs to the console,
so it does not change the state at all. -/
def Action.debug {σ : Type u} {A : Type v} (a : Action σ A) (msg : Option String) :
    Action σ A :=
  a.sideEffect (fun _ s => s)

/-- Runs a list of actions in argument order, threading the state, and
collects each `ActionResult` (the `Promise.all` of `sequence`). -/
def runAll {σ : Type u} {A : Type v} : List (Action σ A) → σ → σ × List (ExecResult A)
  | [], s => (s, [])
  | a :: rest, s =>
    let p := a.run s
    let q := runAll rest p.1
    (q.1, p.2 :: q.2)

/-- The first rejection among the results, if any (`Promise.all` rejects
with it). -/
def firstFailure {A : Type v} : List (ExecResult A) → Option String
  | [] => none
  | .failure m :: _ => some m
  | _ :: rest => firstFailure rest

/-- Whether some result is `cancelled` (`results.some(r => r.type === 'cancelled')`). -/
def anyCancelled {A : Type v} (rs : List (ExecResult A)) : Bool :=
  rs.any fun r => match r with | .cancelled => true | _ => false

/-- The success values, in order (`results.map(r => r.value)`, which the
source applies only once no result is cancelled). -/
def successValues {A : Type v} (rs : List (ExecResult A)) : List A :=
  rs.filterMap fun r => match r with | .success v => some v | _ => none

/-- `sequence(...actions)` of `src/action.ts`, at a homogeneous list of
actions: run all of the actions (`Promise.all`), reject if any rejected,
resolve `Cancelled` if any result is cancelled, otherwise succeed with every
value in argument order. -/
def sequence {σ : Type u} {A : Type v} (actions : List (Action σ A)) :
    Action σ (List A) :=
  ⟨fun s =>
    let p := runAll actions s
    match firstFailure p.2 with
    | some m => (p.1, .failure m)
    | none =>
      if anyCancelled p.2 then (p.1, .cancelled)
      else (p.1, .success (successValues p.2))⟩

/-- `sequence(a, b)` at arity two with heterogeneous element types (the
variadic source `sequence` is tuple-typed); used by `apply` and `and`. -/
def sequencePair {σ : Type u} {A B : Type v} (a : Action σ A) (b : Action σ B) :
    Action σ (A × B) :=
  ⟨fun s =>
    let p := a.run s
    let q := b.run p.1
    match p.2, q.2 with
    | .failure m, _ => (q.1, .failure m)
    | _, .failure m => (q.1, .failure m)
    | .cancelled, _ => (q.1, .cancelled)
    | _, .cancelled => (q.1, .cancelled)
    | .success x, .success y => (q.1, .success (x, y))⟩

/-- `Action.apply` (applicative `<*>`):
`sequence(this, action).map(([f, g]) => f(g))`. -/
def Action.apply {σ : Type u} {B C : Type v} (a : Action σ (B → C)) (b : Action σ B) :
    Action σ C :=
  (sequencePair a b).map fun fg => fg.1 fg.2

/-- `traverse(arr, f) = sequence(...arr.map(f))`. -/
def traverse {σ : Type u} {A : Type v} {B : Type v} (arr : List A) (f : A → Action σ B) :
    Action σ (List B) :=
  sequence (arr.map f)

/-! ## JSON values

Tool inputs and outputs cross the model-dispatch boundary as plain JSON
(the TypeScript `any` of `call.input`); `Value` is that wire-level data. -/

/-- A JSON value, as delivered by the model protocol. -/
inductive Value where
  | null
  | bool (b : Bool)
  | num (n : Int)
  | str (s : String)
  | arr (xs : List Value)
  | obj (fields : List (String × Value))

instance : Inhabited Value := ⟨.null⟩

/-- JavaScript property access `v.k` on an object (first binding wins);
`none` plays the role of `undefined`. -/
def Value.lookup : Value → String → Option Value
  | .obj fs, k => List.lookup k fs
  | _, _ => none

/-- Reads a numeric property, treating anything other than a number as
absent (`undefined`). -/
def Value.numField (v : Value) (k : String) : Option Int :=
  match v.lookup k with
  | some (.num n) => some n
  | _ => none

/-- Reads a string property, treating anything other than a string as
absent (`undefined`). -/
def Value.strField (v : Value) (k : String) : Option String :=
  match v.lookup k with
  | some (.str s) => some s
  | _ => none

mutual

/-- A minimal JSON stringifier (used for history entries, tool examples and
the approval display buffers; no claim depends on the exact text). -/
def Value.stringify : Value → String
  | .null => "null"
  | .bool b => if b then "true" else "false"
  | .num n => toString n
  | .str s => "\"" ++ s ++ "\""
  | .arr xs => "[" ++ String.intercalate "," (stringifyList xs) ++ "]"
  | .obj fs => "\x7b" ++ String.intercalate "," (stringifyFields fs) ++ "\x7d"

/-- Stringifies the elements of a JSON array. -/
def Value.stringifyList : List Value → List String
  | [] => []
  | v :: rest => Value.stringify v :: stringifyList rest

/-- Stringifies the fields of a JSON object. -/
def Value.stringifyFields : List (String × Value) → List String
  | [] => []
  | (k, v) :: rest => ("\"" ++ k ++ "\":" ++ Value.stringify v) :: stringifyFields rest

end

/-! ## JSON schemas (`src/tool.ts`)

Only the fragment of `JSONSchema` that the embedded tools construct is
modelled: a `type` tag and a `properties` map. -/

/-- The `JSONSchema` interface, restricted to the fields the repository
actually populates (`type` and `properties`). -/
inductive JSONSchema where
  | mk (type : Option String) (properties : List (String × JSONSchema))

instance : Inhabited JSONSchema := ⟨.mk none []⟩

/-- `createStringSchema().build()`. -/
def createStringSchema : JSONSchema := .mk (some "string") []

/-- `createNumberSchema().build()`. -/
def createNumberSchema : JSONSchema := .mk (some "number") []

/-- `createObjectSchema().property(k₁, s₁)...build()`; the builder only
accumulates properties in call order. -/
def createObjectSchema (props : List (String × JSONSchema)) : JSONSchema :=
  .mk (some "object") props

/-- `nullSchema`: tools without arguments use a bare object schema. -/
def nullSchema : JSONSchema := createObjectSchema []

mutual

/-- `detectSchema(obj)`: builds a structural type descriptor by inspecting a
sample value, exactly following the `switch` in `src/tool.ts` (an array puts
its first element's schema under an `items` property; an object recurses
into each field in declaration order). -/
def detectSchema : Value → JSONSchema
  | .null => .mk (some "null") []
  | .str _ => .mk (some "string") []
  | .num _ => .mk (some "number") []
  | .bool _ => .mk (some "boolean") []
  | .arr xs =>
    .mk (some "array")
      [("items", match xs with
        | [] => .mk none []
        | x :: _ => detectSchema x)]
  | .obj fs => .mk (some "object") (detectSchemaFields fs)

/-- The field-wise recursion of `detectSchema` over an object literal. -/
def detectSchemaFields : List (String × Value) → List (String × JSONSchema)
  | [] => []
  | (k, v) :: rest => (k, detectSchema v) :: detectSchemaFields rest

end

/-! ## Tools (`tool.ts`) -/

/-- The `Tool<I, O>` class: a named, described, schema-declared capability
backed by an `Action`-producing implementation, with optional worked
examples. -/
structure Tool (σ : Type u) (I : Type v) (O : Type w) where
  name : String
  description : String
  inputSchema : JSONSchema
  actionFn : I → Action σ O
  examples : List (I × O)

/-- `Tool.create`: the `examples` argument defaults to `[]` in the source;
call sites that omit it pass `[]` here. -/
def Tool.create {σ : Type u} {I : Type v} {O : Type w} (name description : String)
    (inputSchema : JSONSchema) (actionFn : I → Action σ O) (examples : List (I × O)) :
    Tool σ I O :=
  ⟨name, description, inputSchema, actionFn, examples⟩

/-- `Tool.action(input)`: produce the effect for an input. -/
def Tool.action {σ : Type u} {I : Type v} {O : Type w} (t : Tool σ I O) (i : I) :
    Action σ O :=
  t.actionFn i

/-- `Tool.mapA(f)`: map on the underlying action.  Note the source calls
`Tool.create(name, description, inputSchema, i => f(this.action(i)))`
without forwarding `examples`, so the derived tool's examples default to the
empty list. -/
def Tool.mapA {σ : Type u} {I : Type v} {O O2 : Type w} (t : Tool σ I O)
    (f : Action σ O → Action σ O2) : Tool σ I O2 :=
  Tool.create t.name t.description t.inputSchema (fun i => f (t.action i)) []

/-- `Tool.map(f)`: map the output of the tool's action. -/
def Tool.map {σ : Type u} {I : Type v} {O O2 : Type w} (t : Tool σ I O) (f : O → O2) :
    Tool σ I O2 :=
  t.mapA (fun a => a.map f)

/-- `Tool.sideEffect(f)`: observe the output (state-transformer form, as for
`Action.sideEffect`). -/
def Tool.sideEffect {σ : Type u} {I : Type v} {O : Type w} (t : Tool σ I O)
    (f : O → σ → σ) : Tool σ I O :=
  t.mapA (fun a => a.sideEffect f)

/-- `Tool.debug(message?)`. -/
def Tool.debug {σ : Type u} {I : Type v} {O : Type w} (t : Tool σ I O)
    (msg : Option String) : Tool σ I O :=
  t.mapA (fun a => a.debug msg)

/-! ## Positions, ranges, documents (the VS Code buffer model)

Lines and characters are embedded as integers (`vscode.Position`
coordinates are numbers; tool inputs may carry arbitrary deltas before
clamping). -/

/-- A `vscode.Position`. -/
structure Pos where
  line : Int
  character : Int
deriving DecidableEq

/-- `Position.isBeforeOrEqual`: lexicographic order on (line, character). -/
def Pos.isBeforeOrEqual (a b : Pos) : Bool :=
  a.line < b.line || (a.line == b.line && a.character ≤ b.character)

/-- A `vscode.Range` (plain start/end record; `end` is a Lean keyword, so
the field is named `stop`). -/
structure Range where
  start : Pos
  stop : Pos
deriving DecidableEq

/-- The `vscode.Range` constructor: if `start` is not before or equal to
`end`, the values are swapped. -/
def mkRange (a b : Pos) : Range :=
  if a.isBeforeOrEqual b then ⟨a, b⟩ else ⟨b, a⟩

/-- A `vscode.TextDocument`: its uri (`fsPath` form) and its lines. -/
structure TextDocument where
  uri : String
  lines : List String

/-- `document.lineCount`. -/
def TextDocument.lineCount (d : TextDocument) : Int :=
  d.lines.length

/-- `document.lineAt(l).text` (only queried at clamped, in-bounds lines by
the source; out-of-range queries default to the empty line). -/
def TextDocument.lineTextAt (d : TextDocument) (l : Int) : String :=
  (d.lines.get? l.toNat).getD ""

/-- The document's full text: its lines joined by newlines, as characters. -/
def joinLines : List String → List Char
  | [] => []
  | [l] => l.toList
  | l :: rest => l.toList ++ '\n' :: joinLines rest

/-- Character offset of the start of (0-based) line `l` in the joined text. -/
def lineStart : List String → Nat → Nat
  | _, 0 => 0
  | [], _ + 1 => 0
  | l :: rest, n + 1 => l.length + 1 + lineStart rest n

/-- `clampPosition(position, document)` from `navigation.ts`: clamp the line
into `[0, lineCount - 1]`, then the character into `[0, length of that
line]`. -/
def clampPosition (p : Pos) (d : TextDocument) : Pos :=
  let clampedLine : Int := max 0 (min p.line (d.lineCount - 1))
  let lineLength : Int := (d.lineTextAt clampedLine).length
  let clampedCharacter : Int := max 0 (min p.character lineLength)
  ⟨clampedLine, clampedCharacter⟩

/-- `document.offsetAt(position)`: the position is first validated (clamped)
by the editor, then mapped to a character offset in the joined text. -/
def TextDocument.offsetAt (d : TextDocument) (p : Pos) : Nat :=
  let q := clampPosition p d
  lineStart d.lines q.line.toNat + q.character.toNat

/-- The slice of a character list between offsets `i` and `j`. -/
def extractChars (cs : List Char) (i j : Nat) : List Char :=
  (cs.drop i).take (j - i)

/-- `document.getText(range)`: the text between the two (validated)
positions of the range — a contiguous slice of the document's joined
text. -/
def TextDocument.getText (d : TextDocument) (r : Range) : String :=
  String.mk (extractChars (joinLines d.lines) (d.offsetAt r.start) (d.offsetAt r.stop))

/-- The serializable `Location` record of `navigation.ts` (`uri` plus a raw
start/end range, as it travels through tool I/O). -/
structure Location where
  uri : String
  range : Range
deriving DecidableEq

/-- `Location.toVSCodeLocation`: reconstructs the editor-level range through
the normalizing `vscode.Range` constructor. -/
def Location.toVSCode (l : Location) : Location :=
  ⟨l.uri, mkRange l.range.start l.range.stop⟩

/-! ## Agent-visible step envelopes and message history (`agent.ts`) -/

/-- `StepType`. -/
inductive StepType where
  | intermediate
  | finished
deriving DecidableEq

/-- `Step<T>`: tags a toolkit result as intermediate or finished. -/
structure Step (T : Type v) where
  type : StepType
  val : T

/-- A history `Message` of `agent.ts` (`input`/`output` hold the wire-level
JSON the dispatch saw). -/
structure Message where
  tool : Option String
  user : String
  msg : Option String
  input : Option Value
  output : Option Value

/-- One content block of a model response: plain text or a tool invocation
(`Anthropic.Messages.TextBlock` / `ToolUseBlock`). -/
inductive ContentBlock where
  | text (s : String)
  | toolUse (name : String) (input : Value)

/-- A symbol record (`SymbolInformation` of `navigation.ts`). -/
structure SymbolInfo where
  name : String
  kind : Nat
  location : Location

/-- A compiler/linter finding as the environment reports it. -/
structure Diagnostic where
  range : Range
  message : String
  severity : Nat
  code : Option String
  source : Option String
  relatedInformation : List String

/-- The mutable fields of the `Agent` object (mutated in place by the
TypeScript closures; threaded explicitly here). -/
structure AgentSt where
  goal : String
  rounds : Nat
  maxRounds : Nat
  messageHistory : List Message
  plan : String

/-- The abstract editor/model environment: the active document and cursor,
plus oracles for each external capability (document lookup, symbol and
reference providers, diagnostics, the language-specific directory-context
scrapers, the blocking input box, and the Anthropic model backend).  The
oracle functions are fixed; the counters record how often each capability
was consumed. -/
structure Env where
  doc : TextDocument
  cursor : Pos
  languageId : String
  langResolvers : String → Option (ExecResult String)
  openDocs : String → List String
  fileSymbols : String → List SymbolInfo
  refsAt : String → Pos → List Location
  markerNext : Pos
  diagnostics : List Diagnostic
  inputs : Nat → Option String
  inputCalls : Nat
  model : Nat → String → List ContentBlock
  modelCalls : Nat
  resultBuffers : List String

/-- The complete program state: one `Agent` instance plus the environment. -/
structure St where
  agent : AgentSt
  env : Env

/-- `liftEditor(f)` for a non-throwing `f`: read (a function of) the
state. -/
def liftEditor {A : Type v} (f : St → A) : Action St A :=
  ⟨fun s => (s, .success (f s))⟩

/-- `getCursor = liftEditor(editor => editor.selection.active)`. -/
def getCursor : Action St Pos :=
  liftEditor (fun s => s.env.cursor)

/-- `currentDoc = liftEditor(e => e.document)`. -/
def currentDoc : Action St TextDocument :=
  liftEditor (fun s => s.env.doc)

/-- `getDoc(uri) = lift(() => vscode.workspace.openTextDocument(uri))`,
backed by the `openDocs` oracle. -/
def getDoc (uri : String) : Action St TextDocument :=
  liftEditor (fun s => ⟨uri, s.env.openDocs uri⟩)

/-- The `{before, target, after}` range triple. -/
structure SurroundingRanges where
  before : Range
  target : Range
  after : Range

/-- The `{before, target, after}` text triple. -/
structure SurroundingText where
  before : String
  target : String
  after : String

/-- `getSurroundingLineRanges(doc, range, n)`: clamp `n` lines around the
target's start line to the document bounds and return the three ranges. -/
def getSurroundingLineRanges (doc : TextDocument) (range : Range) (n : Int) :
    Action St SurroundingRanges :=
  liftEditor (fun _ =>
    let startLine : Int := max 0 (range.start.line - n)
    let endLine : Int := min (doc.lineCount - 1) (range.start.line + n)
    let frm : Pos := ⟨startLine, 0⟩
    let toPos : Pos := ⟨endLine, (doc.lineTextAt endLine).length⟩
    let clampedFrom := clampPosition frm doc
    let clampedTo := clampPosition toPos doc
    { before := mkRange clampedFrom range.start
      target := range
      after := mkRange range.stop clampedTo })

/-- `resolveSurroundingLines(ranges)`: resolve the three ranges to text in
the active editor's document. -/
def resolveSurroundingLines (ranges : SurroundingRanges) : Action St SurroundingText :=
  liftEditor (fun s =>
    { before := s.env.doc.getText ranges.before
      target := s.env.doc.getText ranges.target
      after := s.env.doc.getText ranges.after })

/-- `getSurroundingLines(document, target, n)`. -/
def getSurroundingLines (document : TextDocument) (target : Range) (n : Int) :
    Action St SurroundingText :=
  (getSurroundingLineRanges document target n).bind resolveSurroundingLines

/-! ## Remaining effect primitives -/

/-- Maps an `ExecResult` on success. -/
def ExecResult.mapR {A B : Type v} (r : ExecResult A) (f : A → B) : ExecResult B :=
  match r with
  | .success v => .success (f v)
  | .cancelled => .cancelled
  | .failure m => .failure m

/-- A `map` whose function may throw: used where the source maps a function
that can raise (the normalizing `vscode.Position` constructors inside
`translate_cursor`); the throw rejects the promise. -/
def Action.mapThrow {σ : Type u} {A B : Type v} (a : Action σ A) (f : A → ExecResult B) :
    Action σ B :=
  ⟨fun s =>
    match a.run s with
    | (s1, .success x) => (s1, f x)
    | (s1, .cancelled) => (s1, .cancelled)
    | (s1, .failure m) => (s1, .failure m)⟩

/-- `vscode.window.showInputBox(opts)`: a blocking user prompt, backed by
the `inputs` oracle (`none` is dismissal); each call consumes one queued
response. -/
structure InputBoxOptions where
  prompt : String
  placeHolder : String

/-- The input-box environment capability. -/
def showInputBox (opts : InputBoxOptions) : Action St (Option String) :=
  ⟨fun s =>
    ({ s with env := { s.env with inputCalls := s.env.inputCalls + 1 } },
     .success (s.env.inputs s.env.inputCalls))⟩

/-- Shows a (JSON) result in a scratch buffer
(`showTextDocument` + `edit` inside `approve`); the environment records the
displayed text. -/
def showResultBuffer (contents : String) : Action St Unit :=
  ⟨fun s =>
    ({ s with env := { s.env with resultBuffers := s.env.resultBuffers ++ [contents] } },
     .success ())⟩

/-! ## JSON codecs for tool I/O

At runtime the model protocol delivers tool inputs as raw JSON and receives
outputs as JSON; these codecs are the wire boundary of the typed tool
implementations.  Malformed fields behave like JavaScript `undefined`
property reads. -/

/-- Position → JSON. -/
def encodePos (p : Pos) : Value :=
  .obj [("line", .num p.line), ("character", .num p.character)]

/-- Range → JSON. -/
def encodeRange (r : Range) : Value :=
  .obj [("start", encodePos r.start), ("end", encodePos r.stop)]

/-- Location → JSON. -/
def encodeLocation (l : Location) : Value :=
  .obj [("uri", .str l.uri), ("range", encodeRange l.range)]

/-- JSON → position (missing fields read as 0). -/
def decodePos (v : Value) : Pos :=
  ⟨(v.numField "line").getD 0, (v.numField "character").getD 0⟩

/-- JSON → range. -/
def decodeRange (v : Value) : Range :=
  ⟨decodePos ((v.lookup "start").getD .null), decodePos ((v.lookup "end").getD .null)⟩

/-- JSON → location. -/
def decodeLocation (v : Value) : Location :=
  ⟨(v.strField "uri").getD "", decodeRange ((v.lookup "range").getD .null)⟩

/-- JSON array → list of strings. -/
def decodeStringList (v : Value) : List String :=
  match v with
  | .arr xs => xs.filterMap fun x => match x with | .str s => some s | _ => none
  | _ => []

/-- SurroundingText → JSON. -/
def encodeSurroundingText (t : SurroundingText) : Value :=
  .obj [("before", .str t.before), ("target", .str t.target), ("after", .str t.after)]

/-- SymbolInformation → JSON. -/
def encodeSymbolInfo (s : SymbolInfo) : Value :=
  .obj [("name", .str s.name), ("kind", .num s.kind), ("location", encodeLocation s.location)]

/-- `Option String` → JSON (`undefined` serializes as absence; `null`
stands in for it here). -/
def encodeOptStr (o : Option String) : Value :=
  match o with
  | some s => .str s
  | none => .null

/-- The numeric representation of the `StepType` enum
(`Intermediate = 0`, `Finished = 1`). -/
def stepTypeNum (t : StepType) : Int :=
  match t with
  | .intermediate => 0
  | .finished => 1

/-- `Step<Value>` → JSON. -/
def encodeStep (st : Step Value) : Value :=
  .obj [("type", .num (stepTypeNum st.type)), ("val", st.val)]

/-! ## Navigation/mutation tools (`part_013` navigation module) -/

/-- Input of `translate_cursor`: optional deltas and/or absolute values per
axis. -/
structure TranslateCursorInput where
  lineDelta : Option Int
  characterDelta : Option Int
  lineValue : Option Int
  characterValue : Option Int

/-- `Position.translate(lineDelta, characterDelta)`: throws on a negative
resulting coordinate. -/
def translatePos (p : Pos) (dl dc : Int) : ExecResult Pos :=
  if p.line + dl < 0 ∨ p.character + dc < 0 then .failure "Illegal argument: position"
  else .success ⟨p.line + dl, p.character + dc⟩

/-- `new vscode.Position(line, character)`: throws on a negative
coordinate. -/
def mkPosition (l c : Int) : ExecResult Pos :=
  if l < 0 ∨ c < 0 then .failure "Illegal argument: position"
  else .success ⟨l, c⟩

/-- The body of `translateCursorTool`'s `map` closure: start from the
cursor; if either delta is given, translate by both deltas (each defaulting
to 0); then an absolute `lineValue` and/or `characterValue` overrides its
axis. -/
def translateCursorCompute (cursor : Pos) (input : TranslateCursorInput) : ExecResult Pos :=
  let step1 : ExecResult Pos :=
    if input.lineDelta.isSome || input.characterDelta.isSome then
      translatePos cursor (input.lineDelta.getD 0) (input.characterDelta.getD 0)
    else .success cursor
  match step1 with
  | .success p1 =>
    let step2 : ExecResult Pos :=
      match input.lineValue with
      | some v => mkPosition v p1.character
      | none => .success p1
    match step2 with
    | .success p2 =>
      (match input.characterValue with
       | some v => mkPosition p2.line v
       | none => .success p2)
    | .cancelled => .cancelled
    | .failure m => .failure m
  | .cancelled => .cancelled
  | .failure m => .failure m

/-- `translate_cursor`: moves the cursor position based on provided deltas
or absolute values for line and character, returning the resulting
(empty-range) Location in the current document. -/
def translateCursorTool : Tool St TranslateCursorInput Location :=
  Tool.create "translate_cursor"
    "Moves the cursor position based on provided deltas or absolute values for line and character."
    (createObjectSchema
      [("lineDelta", createNumberSchema), ("characterDelta", createNumberSchema),
       ("lineValue", createNumberSchema), ("characterValue", createNumberSchema)])
    (fun input =>
      (sequencePair getCursor currentDoc).mapThrow (fun cd =>
        (translateCursorCompute cd.1 input).mapR (fun p => ⟨cd.2.uri, ⟨p, p⟩⟩)))
    []

/-- `cursor_location`: the current cursor as an (empty-range) Location. -/
def cursorLocationTool : Tool St Unit Location :=
  Tool.create "cursor_location"
    "Retrieves the current cursor position within the active text editor. This tool returns a Location object containing the file URI and the precise cursor position (line and character)."
    nullSchema
    (fun _ =>
      (sequencePair getCursor currentDoc).map (fun cd => ⟨cd.2.uri, ⟨cd.1, cd.1⟩⟩))
    []

/-- Input of `surrounding_ctx`. -/
structure SurroundingContextInput where
  surroundingLines : Int
  location : Location

/-- `surrounding_ctx`: resolve the surrounding `n` lines of a location. -/
def surroundingContextTool : Tool St SurroundingContextInput SurroundingText :=
  Tool.create "surrounding_ctx"
    "Extracts the surrounding context of a given location"
    (detectSchema (.obj
      [("surroundingLines", .num 10),
       ("location", encodeLocation ⟨"/usr/home", ⟨⟨10, 50⟩, ⟨10, 50⟩⟩⟩)]))
    (fun input =>
      let loc := input.location.toVSCode
      (getDoc loc.uri).bind (fun d => getSurroundingLines d loc.range input.surroundingLines))
    []

/-- Input of `symbols_list`. -/
structure SymbolHierarchyInput where
  uris : List String

/-- `fileSymbols(uri)`: the document-symbol provider, an environment
capability. -/
def fileSymbolsA (uri : String) : Action St (List SymbolInfo) :=
  liftEditor (fun s => s.env.fileSymbols uri)

/-- `symbols_list`: for each uri, every symbol defined in that file. -/
def symbolsInFile : Tool St SymbolHierarchyInput (List (List SymbolInfo)) :=
  Tool.create "symbols_list"
    "For each location, find and return the symbols in said location's file. This tool helps to understand the structure and organization of symbols (such as functions, classes, and variables) in the codebase, providing valuable context for code analysis and navigation. Locations must be known to use this tool."
    (detectSchema (.obj [("uris", .arr [.str "file:///usr/home"])]))
    (fun input => traverse input.uris fileSymbolsA)
    []

/-- `references`: all references to the symbol at a location, via the
reference-provider capability. -/
def referencesTool : Tool St Location (List Location) :=
  Tool.create "references"
    "Finds and returns all references to a symbol at a given location in the codebase. This tool is useful for understanding how a particular symbol (such as a function, variable, or class) is used throughout the project, aiding in code analysis, refactoring, and dependency tracking. The location must be known to use this tool."
    (detectSchema (encodeLocation ⟨"/usr/home", ⟨⟨0, 0⟩, ⟨0, 0⟩⟩⟩))
    (fun location =>
      liftEditor (fun s =>
        let loc := location.toVSCode
        s.env.refsAt loc.uri loc.range.start))
    []

/-- A diagnostic snapshot (`DiagnosticContext` of the navigation module). -/
structure DiagnosticContext where
  pos : Pos
  message : String
  severity : Nat
  code : Option String
  source : Option String
  relatedInformation : List String

/-- Whether a range contains a position (`range.contains(pos)`). -/
def rangeContains (r : Range) (p : Pos) : Bool :=
  r.start.isBeforeOrEqual p && p.isBeforeOrEqual r.stop

/-- `next_problem`: advance the editor's problem marker (the
`editor.action.marker.next` command moves the cursor, modelled by the
`markerNext` oracle), then look up the diagnostic under the new cursor;
cancels if none is found. -/
def nextProblemTool : Tool St Unit DiagnosticContext :=
  Tool.create "next_problem"
    "Moves to the next problem in the editor and extracts its context"
    nullSchema
    (fun _ =>
      ⟨fun s =>
        let s1 : St := { s with env := { s.env with cursor := s.env.markerNext } }
        let pos := s1.env.cursor
        match s1.env.diagnostics.find? (fun d => rangeContains d.range pos) with
        | some d =>
          (s1, .success ⟨pos, d.message, d.severity, d.code, d.source, d.relatedInformation⟩)
        | none => (s1, .cancelled)⟩)
    []

/-- `languageDirContext`: look up the current language's directory-context
resolver (the per-language scrapers are out-of-scope platform code; the
`langResolvers` oracle returns the outcome a resolver would produce);
an unsupported language throws, and `or(pure(""))` recovers either way. -/
def languageDirContext : Action St String :=
  ((liftEditor (fun s => s.env.languageId)).bind (fun lang =>
    ⟨fun s =>
      match s.env.langResolvers lang with
      | none => (s, .failure ("language " ++ lang ++ " unsupported for context lookups"))
      | some r => (s, r)⟩)).or (Action.pure "")

/-- `directory_ctx`: language-specific directory context for the current
workspace. -/
def dirCtxTool : Tool St Unit String :=
  Tool.create "directory_ctx"
    "Provides language-specific directory context for the current workspace. This includes information about available types, function signatures, and other relevant language elements in the current working directory."
    nullSchema
    (fun _ => languageDirContext)
    []

/-- `promptUser`: blocking input box; dismissal cancels. -/
def promptUserTool : Tool St InputBoxOptions String :=
  Tool.create "promptUser"
    "Prompt the user for input"
    (createObjectSchema [("prompt", createStringSchema), ("placeHolder", createStringSchema)])
    (fun opts =>
      (showInputBox opts).bind (fun x =>
        match x with
        | none => Action.cancel
        | some v => Action.pure v))
    []

/-! ## Internal agent tools (`agent.ts`) -/

/-- Input of `setPlan`. -/
structure Plan where
  plan : String

/-- Input of `finish`. -/
structure FinishToolInput where
  summary : Option String

/-- The implementation closure of the agent's `setPlan` tool:
`({ plan }) => { this.plan = plan; return pure({}); }` — it overwrites the
agent's `plan` field and succeeds with the empty object. -/
def setPlanAction (p : Plan) : Action St Value :=
  ⟨fun s =>
    ({ s with agent := { s.agent with plan := p.plan } }, .success (.obj []))⟩

namespace Agent

/-- `Agent.setPlanTool`: set (create or update) the plan. -/
def setPlanTool : Tool St Plan Value :=
  Tool.create "setPlan"
    "Set (create|update) a plan of steps to accomplish the given goal"
    (detectSchema (.obj [("plan",
      .str "To get the square of double the input, first multiply it by two then multiply that by itself.")]))
    setPlanAction
    []

end Agent

/-- `finishTool`: signals completion, already carrying a `Finished`
envelope around the optional summary. -/
def finishTool : Tool St FinishToolInput (Step (Option String)) :=
  Tool.create "finish"
    "Indicate that the agent has completed its task"
    (createObjectSchema [("summary", createStringSchema)])
    (fun x => Action.pure ⟨.finished, x.summary⟩)
    []

/-! ## The wire view of the toolkit

The model protocol passes tool inputs as raw JSON into the typed
implementations and observes JSON outputs; `Tool.toWire` is that runtime
boundary (it is the identity on name/description/schema; none of the
adapted tools declares worked examples). -/

/-- Adapt a typed tool to the JSON wire boundary. -/
def Tool.toWire {I : Type} {O : Type} (t : Tool St I O) (decode : Value → I)
    (encode : O → Value) : Tool St Value Value :=
  Tool.create t.name t.description t.inputSchema
    (fun v => (t.action (decode v)).map encode) []

/-- JSON → `Unit` (tools without arguments). -/
def decodeUnit (_ : Value) : Unit := ()

/-- JSON → `TranslateCursorInput` (non-numeric fields read as absent). -/
def decodeTranslateCursorInput (v : Value) : TranslateCursorInput :=
  ⟨v.numField "lineDelta", v.numField "characterDelta",
   v.numField "lineValue", v.numField "characterValue"⟩

/-- JSON → `SurroundingContextInput`. -/
def decodeSurroundingContextInput (v : Value) : SurroundingContextInput :=
  ⟨(v.numField "surroundingLines").getD 0,
   decodeLocation ((v.lookup "location").getD .null)⟩

/-- JSON → `SymbolHierarchyInput`. -/
def decodeSymbolHierarchyInput (v : Value) : SymbolHierarchyInput :=
  ⟨decodeStringList ((v.lookup "uris").getD .null)⟩

/-- JSON → `Plan`. -/
def decodePlan (v : Value) : Plan :=
  ⟨(v.strField "plan").getD ""⟩

/-- JSON → `FinishToolInput`. -/
def decodeFinishToolInput (v : Value) : FinishToolInput :=
  ⟨v.strField "summary"⟩

/-- DiagnosticContext → JSON. -/
def encodeDiagnosticContext (d : DiagnosticContext) : Value :=
  .obj [("pos", encodePos d.pos), ("message", .str d.message), ("severity", .num d.severity),
        ("code", encodeOptStr d.code), ("source", encodeOptStr d.source),
        ("relatedInformation", .arr (d.relatedInformation.map Value.str))]

/-- `Step (Option String)` → JSON. -/
def encodeStepOptStr (st : Step (Option String)) : Value :=
  encodeStep ⟨st.type, encodeOptStr st.val⟩

/-! ## Model dispatch (`anthropic.ts`) -/

/-- The content of a model response, split by the `reduce` of `decideTool`
into text blocks and tool invocations, in arrival order. -/
structure PartitionedContent where
  text : List String
  toolUse : List (String × Value)

/-- The `content.reduce(...)` of `decideTool`. -/
def partitionContent (content : List ContentBlock) : PartitionedContent :=
  content.foldl
    (fun acc cur =>
      match cur with
      | .text t => ⟨acc.text ++ [t], acc.toolUse⟩
      | .toolUse n i => ⟨acc.text, acc.toolUse ++ [(n, i)]⟩)
    ⟨[], []⟩

/-- The result envelope of `decideTool` (the `UnwrapTool` record
`{ tool, input, output }`). -/
structure Decision where
  tool : Tool St Value (Step Value)
  input : Value
  output : Step Value

/-- Increment the model-call counter. -/
def bumpModelCalls (s : St) : St :=
  { s with env := { s.env with modelCalls := s.env.modelCalls + 1 } }

/-- `anthropic.messages.create(...)` with `tool_choice: any`: the external
model backend, modelled by the `model` oracle (the serialized tool
declarations are sent on the wire; the oracle answers from the call index
and the prompt). -/
def modelMessagesCreate (prompt : String) (tools : List (Tool St Value (Step Value))) :
    Action St (List ContentBlock) :=
  ⟨fun s => (bumpModelCalls s, .success (s.env.model s.env.modelCalls prompt))⟩

/-- `requestApproval(x, fmt, msg)` inside `approve`: show
`{ value: fmt(x), msg }` in a result buffer, then block on the user's
input box; dismissal cancels, anything typed approves and yields `x`. -/
def requestApproval {α : Type} (x : α) (fmt : α → Value) (msg : String) : Action St α :=
  ((showResultBuffer (Value.stringify (.obj [("value", fmt x), ("msg", .str msg)]))).bind
    (fun _ => promptUserTool.action
      ⟨"Operation completed. Continue? escape cancels, enter accepts", "ret"⟩)).map
    (fun _ => x)

/-- `approve(input, fmtI, f, fmtO)`: approve the input, run `f`, then
approve the output. -/
def approve {O : Type} (input : Value) (fmtI : Value → Value) (f : Value → Action St O)
    (fmtO : O → Value) : Action St O :=
  ((requestApproval input fmtI "input").bind f).bind
    (fun o => (requestApproval o fmtO "output").map (fun _ => o))

/-- The response-processing tail of `decideTool` (everything after the
model call): pick the FIRST tool invocation of the response, fail fatally
if there is none or if its name is not among the provided tools, otherwise
execute the chosen tool on the invocation's input (routing through the
interactive approval gate when requested). -/
def processResponse (interactive : Bool) (tools : List (Tool St Value (Step Value)))
    (content : List ContentBlock) : Action St Decision :=
  let output := partitionContent content
  match output.toolUse.head? with
  | none => Action.fail "No tool was chosen"
  | some call =>
    match tools.find? (fun t => t.name == call.1) with
    | none => Action.fail ("Chosen tool " ++ call.1 ++ " not found in provided tools")
    | some chosen =>
      let execute := fun (input : Value) =>
        (chosen.action input).map (fun output => Decision.mk chosen input output)
      if interactive then
        approve call.2
          (fun input => .obj [("tool", .str chosen.name), ("input", input)])
          execute
          (fun d => .obj [("tool", .str chosen.name), ("output", encodeStep d.output)])
      else execute call.2

/-- `decideTool(prompt, interactive, ...tools)`: ask the model to pick one
tool, then process its response. -/
def decideTool (prompt : String) (interactive : Bool)
    (tools : List (Tool St Value (Step Value))) : Action St Decision :=
  (modelMessagesCreate prompt tools).bind (processResponse interactive tools)

/-- `descriptionWithExamples()` at the wire type: the description, a blank
line, an `Examples:` header, and each example as stringified
`Input:`/`Output:` lines in declaration order. -/
def Tool.descriptionWithExamples (t : Tool St Value (Step Value)) : List String :=
  [t.description, "", "Examples:"] ++
    (t.examples.enum.map (fun ex =>
      (if ex.1 > 0 then [""] else []) ++
        ["Input: " ++ Value.stringify ex.2.1,
         "Output: " ++ Value.stringify (encodeStep ex.2.2)])).flatten

/-! ## The agent loop (`agent.ts`) -/

namespace Agent

/-- `Agent.create(opts)`: rounds start at 0, `maxRounds` defaults to 8,
empty history and plan. -/
def create (goal : String) (maxRounds : Option Nat) : AgentSt :=
  ⟨goal, 0, maxRounds.getD 8, [], ""⟩

/-- `Agent._stepMap(type, ...tools)`: wrap every tool's output in a
`Step` envelope of the given type (via `Tool.map`). -/
def stepMap (type : StepType) (tools : List (Tool St Value Value)) :
    List (Tool St Value (Step Value)) :=
  tools.map (fun tool => tool.map (fun val => ⟨type, val⟩))

/-- The session toolkit: the navigation tools plus `setPlan`, tagged
`Intermediate`, and `finish` (with its debug logging), tagged
`Finished`, all at the JSON wire boundary. -/
def toolkit : List (Tool St Value (Step Value)) :=
  stepMap .intermediate
    [cursorLocationTool.toWire decodeUnit encodeLocation,
     symbolsInFile.toWire decodeSymbolHierarchyInput
       (fun xss => .arr (xss.map (fun xs => .arr (xs.map encodeSymbolInfo)))),
     referencesTool.toWire decodeLocation (fun ls => .arr (ls.map encodeLocation)),
     nextProblemTool.toWire decodeUnit encodeDiagnosticContext,
     surroundingContextTool.toWire decodeSurroundingContextInput encodeSurroundingText,
     dirCtxTool.toWire decodeUnit Value.str,
     translateCursorTool.toWire decodeTranslateCursorInput encodeLocation,
     setPlanTool.toWire decodePlan (fun v => v)] ++
  stepMap .finished
    [(finishTool.toWire decodeFinishToolInput encodeStepOptStr).debug (some "Finished tool")]

/-- A history message as `JSON.stringify` renders it inside the prompt
(literal key order of the pushed object; absent optional keys are
omitted). -/
def messageJson (m : Message) : String :=
  Value.stringify (.obj
    ([("user", .str m.user)] ++
     (match m.tool with | some t => [("tool", Value.str t)] | none => []) ++
     (match m.msg with | some t => [("msg", Value.str t)] | none => []) ++
     (match m.input with | some v => [("input", v)] | none => []) ++
     (match m.output with | some v => [("output", v)] | none => [])))

/-- The fixed instruction block of the agent prompt. -/
def instructionsText : String :=
  "<instructions>\n1. Review the goal and current plan (if any).\n2. If no plan exists, create one to achieve the goal.\n3. Follow the plan.\n4. Use the provided tools to gather information and make changes.\n5. Continually reassess and adjust the plan, updating it with your progress and new information.\n6. When the goal is achieved, use the finish tool to complete the task.\n7. Remember to account for tool input & output schemas.\n9. Remember to consider whether the goal is achieved after each round.\n</instructions>"

/-- The prompt text built from the agent's goal, plan and trailing history
window (most recent 6 messages). -/
def promptText (a : AgentSt) (dirCtx : String) : String :=
  let preamble := "<preamble>You are an AI code assistant. Your task is to build a plan and solve an arbitrary goal using the provided tools.</preamble>"
  let goalSection := if a.goal ≠ "" then "<goal>" ++ a.goal ++ "</goal>" else ""
  let planSection := if a.plan ≠ "" then "<plan>" ++ a.plan ++ "</plan>" else ""
  let historySection := "<history>" ++
    String.join ((a.messageHistory.drop (a.messageHistory.length - 6)).map
      (fun m => "<message>" ++ messageJson m ++ "</message>")) ++ "</history>"
  preamble ++ "\n" ++ goalSection ++ "\n" ++ planSection ++ "\n" ++ historySection ++ "\n" ++
    instructionsText

/-- `Agent.prompt()`: resolve the directory context, then render the prompt
from the agent's current state (the source reads `this.goal`, `this.plan`
and `this.messageHistory` inside the `map` closure; that state read is
explicit here). -/
def prompt : Action St String :=
  (dirCtxTool.action ()).bind (fun dirCtx => liftEditor (fun s => promptText s.agent dirCtx))

/-- The first `bind` closure of `Agent.step`:
`this.rounds++; if (this.rounds > this.maxRounds) return Action.fail("Max rounds reached"); return pure(undefined)`
(the returned action executes against the already-incremented state). -/
def roundCheck : Action St Unit :=
  ⟨fun s =>
    let a := { s.agent with rounds := s.agent.rounds + 1 }
    if a.rounds > a.maxRounds then ({ s with agent := a }, .failure "Max rounds reached")
    else ({ s with agent := a }, .success ())⟩

/-- The history entry `Agent.step` pushes after a successful dispatch. -/
def historyEntry (d : Decision) : Message :=
  { user := "assistant", tool := some d.tool.name, msg := some "tool called",
    input := some d.input, output := some d.output.val }

/-- `Agent.step()`: bump and check the round budget, build the prompt,
dispatch interactively against the toolkit, and record the outcome in the
message history. -/
def step : Action St Decision :=
  ((((Action.pure ()).bind (fun _ => roundCheck)).bind
      (fun _ => prompt)).bind
      (fun p => decideTool p true toolkit)).sideEffect
    (fun d s =>
      { s with agent :=
        { s.agent with messageHistory := s.agent.messageHistory ++ [historyEntry d] } })

/-- `Agent.recurse()`: run one step, project the envelope, stop on a
`Finished` result, otherwise recurse.  The source recursion constructs the
next round's action lazily inside `bind`; here the unfolding carries
explicit fuel (the proofs only evaluate it at depths its budget check
reaches, so the out-of-fuel case is never hit). -/
def recurse : Nat → Action St Unit
  | 0 => Action.fail "recursion fuel exhausted"
  | fuel + 1 =>
    (step.map (fun d => (d.output.type, d.tool.name, d.input, d.output.val))).bind
      (fun r => if r.1 = StepType.finished then Action.pure () else recurse fuel)

end Agent

/-! ## Concrete oracles and sample states (for the concrete evaluations) -/

/-- A model oracle that always picks `setPlan` with a fixed plan. -/
def planOracle : Nat → String → List ContentBlock :=
  fun _ _ => [.toolUse "setPlan" (.obj [("plan", .str "step one")])]

/-- A user who approves every interactive gate. -/
def acceptAll : Nat → Option String :=
  fun _ => some "ok"

/-- A model oracle that answers with text only (no tool invocation). -/
def noToolOracle : Nat → String → List ContentBlock :=
  fun _ _ => [.text "I pick no tool"]

/-- A model oracle that names a tool absent from any toolkit. -/
def bogusToolOracle : Nat → String → List ContentBlock :=
  fun _ _ => [.toolUse "bogus" .null]

/-- A user who dismisses every interactive gate. -/
def rejectAll : Nat → Option String :=
  fun _ => none

/-- No language has a registered directory-context resolver. -/
def noResolvers : String → Option (ExecResult String) :=
  fun _ => none

/-- A small sample document. -/
def sampleDoc : TextDocument :=
  ⟨"/ws/main.ts", ["line zero", "line one", "line two"]⟩

/-- A sample environment around the given model and input oracles. -/
def mkEnv (model : Nat → String → List ContentBlock) (inputs : Nat → Option String) : Env :=
  { doc := sampleDoc, cursor := ⟨0, 0⟩, languageId := "typescript",
    langResolvers := noResolvers, openDocs := fun _ => sampleDoc.lines,
    fileSymbols := fun _ => [], refsAt := fun _ _ => [], markerNext := ⟨0, 0⟩,
    diagnostics := [], inputs := inputs, inputCalls := 0, model := model,
    modelCalls := 0, resultBuffers := [] }

/-- A freshly created agent in the sample environment. -/
def mkSt (goal : String) (maxRounds : Nat) (model : Nat → String → List ContentBlock)
    (inputs : Nat → Option String) : St :=
  ⟨⟨goal, 0, maxRounds, [], ""⟩, mkEnv model inputs⟩

/-- A 20-line document (the clamping example of the specification). -/
def doc20 : TextDocument :=
  ⟨"/ws/doc20.txt", List.replicate 20 "abcdefgh"⟩

/-- The tool-call input `planOracle` sends. -/
def setPlanCall : Value := .obj [("plan", .str "step one")]

/-- The toolkit entry `decideTool` finds for the name `setPlan`. -/
def setPlanChosenTool : Tool St Value (Step Value) :=
  (Agent.setPlanTool.toWire decodePlan (fun v => v)).map
    (fun val => ⟨.intermediate, val⟩)

/-- The dispatch result of a `planOracle` round. -/
def setPlanDecision : Decision :=
  ⟨setPlanChosenTool, setPlanCall, ⟨.intermediate, .obj []⟩⟩

/-- The text shown for input approval of a `planOracle` round. -/
def setPlanInputBuf : String :=
  Value.stringify (.obj
    [("value", .obj [("tool", .str "setPlan"), ("input", setPlanCall)]),
     ("msg", .str "input")])

/-- The text shown for output approval of a `planOracle` round. -/
def setPlanOutputBuf : String :=
  Value.stringify (.obj
    [("value", .obj [("tool", .str "setPlan"),
       ("output", encodeStep ⟨.intermediate, .obj []⟩)]),
     ("msg", .str "output")])

/-- The history entry recorded after a `planOracle` round. -/
def setPlanHistoryMsg : Message :=
  Agent.historyEntry setPlanDecision

/-! # Theorems -/

/-- **C1.** For every Effect `a` that resolves to `Cancelled` and every `f`,
`a.bind(f)` resolves to `Cancelled` and `a.map(f)` resolves to `Cancelled`;
in both cases the result — including the final state, which `f` would have
to change to be observed — is the same for every `f`, so `f` is never
invoked. -/
theorem bind_map_short_circuit_on_cancellation {σ : Type u} {A B : Type v}
    (a : Action σ A) (s s1 : σ) (h : a.run s = (s1, .cancelled)) :
    (∀ f : A → Action σ B, (a.bind f).run s = (s1, .cancelled)) ∧
    (∀ g : A → B, (a.map g).run s = (s1, .cancelled)) := by
  constructor
  · intro f
    simp [Action.bind, h]
  · intro g
    simp [Action.map, h]

/-- Witness for C1 at a concrete cancelled effect and concrete functions. -/
theorem bind_map_short_circuit_on_cancellation_witness :
    ((Action.cancel : Action Nat Nat).run 0 = (0, .cancelled)) ∧
    ((Action.cancel.bind (fun x : Nat => Action.pure (x + 1))).run 0
      = ((0 : Nat), ExecResult.cancelled)) ∧
    (((Action.cancel : Action Nat Nat).map (fun x => x + 1)).run 0
      = ((0 : Nat), ExecResult.cancelled)) :=
  ⟨rfl,
   (bind_map_short_circuit_on_cancellation Action.cancel 0 0 rfl).1 _,
   (bind_map_short_circuit_on_cancellation Action.cancel 0 0 rfl).2 _⟩

/-- Helper: `anyCancelled` detects exactly a cancelled member. -/
theorem anyCancelled_eq_true_iff {A : Type v} (rs : List (ExecResult A)) :
    anyCancelled rs = true ↔ ExecResult.cancelled ∈ rs := by
  unfold anyCancelled
  rw [List.any_eq_true]
  constructor
  · rintro ⟨r, hr, hm⟩
    cases r with
    | success v => simp at hm
    | cancelled => exact hr
    | failure m => simp at hm
  · intro h
    exact ⟨.cancelled, h, rfl⟩

/-- Helper: collecting the values of an all-success result list. -/
theorem successValues_map_success {A : Type v} (vs : List A) :
    successValues (vs.map ExecResult.success) = vs := by
  induction vs with
  | nil => rfl
  | cons v vs ih => simp [successValues] at ih ⊢; exact ih

/-- **C2.** For every list of Effects given to `sequence`, all of which
resolve (none rejects in the composed run): if any input resolved
`Cancelled`, the composed Effect resolves to `Cancelled` (carrying no
partial list of results); if every input succeeded, the composed Effect
succeeds with all values in argument order. -/
theorem sequence_fail_fast {σ : Type u} {A : Type v} (es : List (Action σ A)) (s : σ)
    (hnf : firstFailure (runAll es s).2 = none) :
    (ExecResult.cancelled ∈ (runAll es s).2 →
      (sequence es).run s = ((runAll es s).1, .cancelled)) ∧
    (∀ vs : List A, (runAll es s).2 = vs.map ExecResult.success →
      (sequence es).run s = ((runAll es s).1, .success vs)) := by
  constructor
  · intro hmem
    unfold sequence
    simp only [hnf]
    rw [if_pos ((anyCancelled_eq_true_iff _).2 hmem)]
  · intro vs hvs
    unfold sequence
    simp only [hnf]
    have hnc : anyCancelled (runAll es s).2 = false := by
      rw [Bool.eq_false_iff]
      intro hc
      have := (anyCancelled_eq_true_iff _).1 hc
      rw [hvs] at this
      rcases List.mem_map.1 this with ⟨v, _, hv⟩
      exact ExecResult.noConfusion hv
    rw [hnc]
    simp only [Bool.false_eq_true, if_false, hvs, successValues_map_success]

/-- Witness for C2: `sequence(pure(1), cancel(), pure(3))` resolves to
`Cancelled` (the specification's own example), and an all-success list
collects the tuple in order. -/
theorem sequence_fail_fast_witness :
    (firstFailure (runAll [Action.pure 1, Action.cancel, Action.pure 3] (0 : Nat)).2 = none) ∧
    (ExecResult.cancelled ∈ (runAll [Action.pure 1, Action.cancel, Action.pure 3] (0 : Nat)).2) ∧
    ((sequence [Action.pure 1, Action.cancel, Action.pure 3]).run (0 : Nat)
      = (0, .cancelled)) ∧
    ((sequence [Action.pure 10, Action.pure 20]).run (0 : Nat)
      = (0, .success [10, 20])) :=
  ⟨rfl, by decide,
   (sequence_fail_fast [Action.pure 1, Action.cancel, Action.pure 3] 0 rfl).1 (by decide),
   (sequence_fail_fast [Action.pure 10, Action.pure 20] 0 rfl).2 [10, 20] rfl⟩

/-- **C8** (supporting evaluation for the recorded code bug).  The base
direction of the repository's own `apply` test holds of the code: with
`addOne = pure(x => x + 1)` and `five = pure(5)`, `addOne.apply(five)`
resolves to `Success(6)`.  The flipped direction `five.apply(addOne)` that
the claim (and the repository's test) also asserts cannot hold of
`src/action.ts`: `apply` always treats the *receiver* as the function
(`sequence(this, action).map(([f, g]) => f(g))`), so the flipped call
applies the number 5 to a function and rejects with a TypeError instead of
resolving to `Success(6)`. -/
theorem apply_base_direction {σ : Type u} (s : σ) :
    ((Action.pure (fun x : Int => x + 1)).apply (Action.pure 5)).run s = (s, .success 6) := by
  simp [Action.apply, sequencePair, Action.pure, Action.map]

/-- **C9.** Every invocation of `setPlan` replaces the agent's plan
wholesale: one invocation leaves exactly `plan := p₁` (every other field of
the state unchanged), and a second invocation leaves exactly `plan := p₂` —
no merge or append, and goal/round counter untouched. -/
theorem setPlan_replaces_wholesale (s : St) (p₁ p₂ : String) :
    ((Agent.setPlanTool.action ⟨p₁⟩).run s
      = ({ s with agent := { s.agent with plan := p₁ } }, .success (.obj []))) ∧
    (((Agent.setPlanTool.action ⟨p₁⟩).bind (fun _ => Agent.setPlanTool.action ⟨p₂⟩)).run s
      = ({ s with agent := { s.agent with plan := p₂ } }, .success (.obj []))) := by
  constructor
  · rfl
  · rfl

/-- Helper for C6: the cursor-translation computation applies the optional
deltas first and then lets absolute values override their axis, provided no
intermediate coordinate goes negative. -/
theorem translateCursorCompute_eq (cursor : Pos) (ld cd lv cv : Option Int)
    (h1 : 0 ≤ cursor.line + ld.getD 0)
    (h2 : 0 ≤ cursor.character + cd.getD 0)
    (h3 : 0 ≤ lv.getD 0)
    (h4 : 0 ≤ cv.getD 0) :
    translateCursorCompute cursor ⟨ld, cd, lv, cv⟩ =
      .success ⟨lv.getD (cursor.line + ld.getD 0), cv.getD (cursor.character + cd.getD 0)⟩ := by
  obtain ⟨cl, cc⟩ := cursor
  unfold translateCursorCompute translatePos mkPosition
  cases ld <;> cases cd <;> cases lv <;> cases cv <;>
    simp_all only [Option.isSome_none, Option.isSome_some, Option.getD_some, Option.getD_none,
      Bool.or_self, Bool.false_or, Bool.or_false, Bool.true_or, Bool.or_true,
      if_true, if_false, Bool.false_eq_true, reduceIte, Int.add_zero] <;>
    simp (disch := omega) only [if_neg]

/-- **C6.** `translate_cursor` resolves its input by applying the optional
deltas to the current cursor first and then letting absolute values
override per axis: the resulting line is `lineValue` when given and
`cursor.line + lineDelta` (delta defaulting to 0) otherwise, and likewise
for the character axis; an axis with neither delta nor value is unchanged.
In particular, cursor `(5, 10)` with `{lineDelta: 2, lineValue: 0}` yields
line 0 — not 7 — and character 10. -/
theorem translate_cursor_delta_then_absolute (s : St) (ld cd lv cv : Option Int)
    (h1 : 0 ≤ s.env.cursor.line + ld.getD 0)
    (h2 : 0 ≤ s.env.cursor.character + cd.getD 0)
    (h3 : 0 ≤ lv.getD 0)
    (h4 : 0 ≤ cv.getD 0) :
    (translateCursorTool.action ⟨ld, cd, lv, cv⟩).run s =
      (s, .success ⟨s.env.doc.uri,
        ⟨⟨lv.getD (s.env.cursor.line + ld.getD 0),
          cv.getD (s.env.cursor.character + cd.getD 0)⟩,
         ⟨lv.getD (s.env.cursor.line + ld.getD 0),
          cv.getD (s.env.cursor.character + cd.getD 0)⟩⟩⟩) := by
  simp only [translateCursorTool, Tool.action, Tool.create, Action.mapThrow, sequencePair,
    getCursor, currentDoc, liftEditor,
    translateCursorCompute_eq s.env.cursor ld cd lv cv h1 h2 h3 h4, ExecResult.mapR]

/-- Witness for C6: the specification's concrete tie-break — current cursor
`(line = 5, character = 10)` and input `{lineDelta: 2, lineValue: 0}` yield
line 0 (not 7) and character 10. -/
theorem translate_cursor_delta_then_absolute_witness :
    (translateCursorTool.action ⟨some 2, none, some 0, none⟩).run
        { agent := Agent.create "g" none,
          env := { mkEnv planOracle acceptAll with cursor := ⟨5, 10⟩ } } =
      ({ agent := Agent.create "g" none,
         env := { mkEnv planOracle acceptAll with cursor := ⟨5, 10⟩ } },
       .success ⟨sampleDoc.uri, ⟨⟨0, 10⟩, ⟨0, 10⟩⟩⟩) :=
  translate_cursor_delta_then_absolute _ (some 2) none (some 0) none
    (by norm_num) (by norm_num) (by norm_num) (by norm_num)

/-- **C10.** `Tool.map`, `Tool.sideEffect` and `Tool.debug` (all built on
`Tool.mapA`) preserve the tool's name, description and input schema but
always produce an empty examples list; consequently every tool of the
agent's session toolkit (each wrapped through `Agent.stepMap`, i.e.
`Tool.map`) carries no examples, and the description text serialized to the
model for any toolkit tool consists of the bare description with an empty
`Examples:` section — no worked example ever reaches the model. -/
theorem derived_tools_drop_examples {σ : Type u} {I : Type v} {O O2 : Type w}
    (t : Tool σ I O) (f : O → O2) (g : O → σ → σ) (msg : Option String) :
    ((t.map f).name = t.name ∧ (t.map f).description = t.description ∧
      (t.map f).inputSchema = t.inputSchema ∧ (t.map f).examples = []) ∧
    ((t.sideEffect g).name = t.name ∧ (t.sideEffect g).description = t.description ∧
      (t.sideEffect g).inputSchema = t.inputSchema ∧ (t.sideEffect g).examples = []) ∧
    ((t.debug msg).name = t.name ∧ (t.debug msg).description = t.description ∧
      (t.debug msg).inputSchema = t.inputSchema ∧ (t.debug msg).examples = []) ∧
    (∀ (ty : StepType) (ts : List (Tool St Value Value)) (t' : Tool St Value (Step Value)),
      t' ∈ Agent.stepMap ty ts → t'.examples = []) ∧
    (∀ t' : Tool St Value (Step Value), t' ∈ Agent.toolkit →
      t'.examples = [] ∧ t'.descriptionWithExamples = [t'.description, "", "Examples:"]) := by
  refine ⟨⟨rfl, rfl, rfl, rfl⟩, ⟨rfl, rfl, rfl, rfl⟩, ⟨rfl, rfl, rfl, rfl⟩, ?_, ?_⟩
  · intro ty ts t' ht'
    rcases List.mem_map.1 ht' with ⟨tool, _, rfl⟩
    rfl
  · intro t' ht'
    have hex : t'.examples = [] := by
      simp only [Agent.toolkit, Agent.stepMap, List.map_cons, List.map_nil, List.cons_append,
        List.nil_append, List.mem_cons, List.not_mem_nil, or_false] at ht'
      rcases ht' with h | h | h | h | h | h | h | h | h <;> subst h <;> rfl
    refine ⟨hex, ?_⟩
    simp [Tool.descriptionWithExamples, hex]

/-- **C3.** `decideTool`, given a prompt and a list of tools: if the
model's response contains no tool invocation, it fails fatally with
"No tool was chosen" (a fatal failure ends the chain; nothing retries it);
if the first-named tool is absent from the provided list, it fails fatally;
otherwise exactly the first tool invocation of the response is executed —
the dispatch behaves identically to a response carrying only that first
invocation, so any further invocations are ignored — and in the
non-interactive mode the executed effect is precisely the chosen tool's
action on the invocation's input. -/
theorem decideTool_dispatch_contract (interactive : Bool)
    (tools : List (Tool St Value (Step Value))) (prompt : String) (s : St) :
    ((partitionContent (s.env.model s.env.modelCalls prompt)).toolUse = [] →
      (decideTool prompt interactive tools).run s
        = (bumpModelCalls s, .failure "No tool was chosen")) ∧
    (∀ (name : String) (input : Value) (rest : List (String × Value)),
      (partitionContent (s.env.model s.env.modelCalls prompt)).toolUse
          = (name, input) :: rest →
      ((tools.find? (fun t => t.name == name) = none →
        (decideTool prompt interactive tools).run s
          = (bumpModelCalls s,
             .failure ("Chosen tool " ++ name ++ " not found in provided tools"))) ∧
       (∀ chosen, tools.find? (fun t => t.name == name) = some chosen →
        ((decideTool prompt interactive tools).run s
            = (processResponse interactive tools [.toolUse name input]).run
                (bumpModelCalls s)) ∧
        (interactive = false →
          (decideTool prompt interactive tools).run s
            = ((chosen.action input).map (fun o => Decision.mk chosen input o)).run
                (bumpModelCalls s))))) := by
  have hrun : (decideTool prompt interactive tools).run s
      = (processResponse interactive tools (s.env.model s.env.modelCalls prompt)).run
          (bumpModelCalls s) := rfl
  constructor
  · intro hempty
    rw [hrun]
    simp only [processResponse, hempty, List.head?_nil]
    rfl
  · intro name input rest hcons
    constructor
    · intro hnone
      rw [hrun]
      simp only [processResponse, hcons, List.head?_cons, hnone]
      rfl
    · intro chosen hfound
      constructor
      · rw [hrun]
        have hsingle : (partitionContent [ContentBlock.toolUse name input]).toolUse
            = [(name, input)] := rfl
        simp only [processResponse, hcons, hsingle, List.head?_cons, hfound]
      · intro hni
        rw [hrun, hni]
        simp only [processResponse, hcons, List.head?_cons, hfound, Bool.false_eq_true,
          if_false, reduceIte]

/-- Witness for C3: against the agent's own toolkit, a text-only response
fails with "No tool was chosen", an unknown tool name fails with the
defensive error, and a response naming `setPlan` executes exactly that
tool's action on the invocation's input. -/
theorem decideTool_dispatch_contract_witness :
    ((decideTool "p" true Agent.toolkit).run (mkSt "g" 2 noToolOracle acceptAll)
      = (bumpModelCalls (mkSt "g" 2 noToolOracle acceptAll),
         .failure "No tool was chosen")) ∧
    ((decideTool "p" true Agent.toolkit).run (mkSt "g" 2 bogusToolOracle acceptAll)
      = (bumpModelCalls (mkSt "g" 2 bogusToolOracle acceptAll),
         .failure ("Chosen tool " ++ "bogus" ++ " not found in provided tools"))) ∧
    ((decideTool "p" false Agent.toolkit).run (mkSt "g" 2 planOracle acceptAll)
      = ((((Agent.setPlanTool.toWire decodePlan (fun v => v)).map
            (fun val => (⟨.intermediate, val⟩ : Step Value))).action
            (.obj [("plan", .str "step one")])).map
          (fun o => Decision.mk
            ((Agent.setPlanTool.toWire decodePlan (fun v => v)).map
              (fun val => (⟨.intermediate, val⟩ : Step Value)))
            (.obj [("plan", .str "step one")]) o)).run
          (bumpModelCalls (mkSt "g" 2 planOracle acceptAll))) :=
  ⟨(decideTool_dispatch_contract true Agent.toolkit "p" (mkSt "g" 2 noToolOracle acceptAll)).1
      rfl,
   ((decideTool_dispatch_contract true Agent.toolkit "p"
        (mkSt "g" 2 bogusToolOracle acceptAll)).2 "bogus" .null [] rfl).1 rfl,
   (((decideTool_dispatch_contract false Agent.toolkit "p"
        (mkSt "g" 2 planOracle acceptAll)).2 "setPlan" (.obj [("plan", .str "step one")]) []
        rfl).2 _ rfl).2 rfl⟩

/-- Helper: adjacent slices of the same list compose. -/
theorem extractChars_append (cs : List Char) (i j k : Nat) (hij : i ≤ j) (hjk : j ≤ k) :
    extractChars cs i j ++ extractChars cs j k = extractChars cs i k := by
  unfold extractChars
  have hdj : cs.drop j = (cs.drop i).drop (j - i) := by
    rw [List.drop_drop]
    congr 1
    omega
  rw [hdj, ← List.take_add]
  congr 1
  omega

/-- Helper: the range constructor keeps an ordered pair as given. -/
theorem mkRange_of_le (a b : Pos) (h : a.isBeforeOrEqual b = true) :
    mkRange a b = ⟨a, b⟩ := by
  unfold mkRange
  rw [if_pos h]

/-- Helper: the lexicographic position order, unfolded. -/
theorem isBeforeOrEqual_iff (a b : Pos) :
    a.isBeforeOrEqual b = true ↔
      (a.line < b.line ∨ (a.line = b.line ∧ a.character ≤ b.character)) := by
  simp [Pos.isBeforeOrEqual]

/-- **C7.** For every requested `surroundingLines` count and every target
range inside the document, the `{before, target, after}` ranges are clamped
to the document bounds: the `before` range starts exactly at line
`max 0 (start.line - n)` — never above line 0 — the `after` range never
extends past the last line, and each of the three resolved texts is a
contiguous slice of the document's own text (so the concatenation contains
no content outside the document). -/
theorem surrounding_ctx_clamped (s : St) (d : TextDocument) (t : Range) (n : Int)
    (hdoc : s.env.doc = d) (hne : d.lines ≠ []) (hn : 0 ≤ n)
    (hs0 : 0 ≤ t.start.line) (hsc : 0 ≤ t.start.character)
    (hsl : t.start.line ≤ d.lineCount - 1) (hel : t.stop.line ≤ d.lineCount - 1) :
    ∃ rs : SurroundingRanges,
      (getSurroundingLineRanges d t n).run s = (s, .success rs) ∧
      rs.before.start = ⟨max 0 (t.start.line - n), 0⟩ ∧
      0 ≤ rs.before.start.line ∧
      rs.after.stop.line ≤ d.lineCount - 1 ∧
      ∃ res : SurroundingText,
        (getSurroundingLines d t n).run s = (s, .success res) ∧
        (∃ i j, res.before = String.mk (extractChars (joinLines d.lines) i j)) ∧
        (∃ i j, res.target = String.mk (extractChars (joinLines d.lines) i j)) ∧
        (∃ i j, res.after = String.mk (extractChars (joinLines d.lines) i j)) := by
  have hcount : (1 : Int) ≤ d.lineCount := by
    have hlen : d.lines.length ≠ 0 := fun h => hne (List.length_eq_zero.1 h)
    simp only [TextDocument.lineCount]
    omega
  have hfrom : clampPosition ⟨max 0 (t.start.line - n), 0⟩ d = ⟨max 0 (t.start.line - n), 0⟩ := by
    simp only [clampPosition, Pos.mk.injEq]
    simp only [TextDocument.lineCount] at hsl hcount ⊢
    constructor <;> omega
  have hbefore : mkRange (clampPosition ⟨max 0 (t.start.line - n), 0⟩ d) t.start
      = ⟨⟨max 0 (t.start.line - n), 0⟩, t.start⟩ := by
    rw [hfrom]
    refine mkRange_of_le _ _ ((isBeforeOrEqual_iff _ _).2 ?_)
    show max 0 (t.start.line - n) < t.start.line ∨
      (max 0 (t.start.line - n) = t.start.line ∧ (0 : Int) ≤ t.start.character)
    omega
  have hrun : (getSurroundingLineRanges d t n).run s
      = (s, .success
          { before := mkRange (clampPosition ⟨max 0 (t.start.line - n), 0⟩ d) t.start,
            target := t,
            after := mkRange t.stop
              (clampPosition ⟨min (d.lineCount - 1) (t.start.line + n),
                ((d.lineTextAt (min (d.lineCount - 1) (t.start.line + n))).length : Int)⟩ d) }) :=
    rfl
  refine ⟨_, hrun, ?_, ?_, ?_, ?_⟩
  · show (mkRange (clampPosition ⟨max 0 (t.start.line - n), 0⟩ d) t.start).start = _
    rw [hbefore]
  · show 0 ≤ (mkRange (clampPosition ⟨max 0 (t.start.line - n), 0⟩ d) t.start).start.line
    rw [hbefore]
    show 0 ≤ max 0 (t.start.line - n)
    omega
  · show (mkRange t.stop (clampPosition ⟨min (d.lineCount - 1) (t.start.line + n),
        ((d.lineTextAt (min (d.lineCount - 1) (t.start.line + n))).length : Int)⟩ d)).stop.line
      ≤ d.lineCount - 1
    unfold mkRange
    split_ifs
    · show (clampPosition ⟨min (d.lineCount - 1) (t.start.line + n), _⟩ d).line ≤ _
      simp only [clampPosition, TextDocument.lineCount] at hcount ⊢
      omega
    · exact hel
  · have hres : (getSurroundingLines d t n).run s
        = (s, .success
            { before := d.getText (mkRange (clampPosition ⟨max 0 (t.start.line - n), 0⟩ d) t.start),
              target := d.getText t,
              after := d.getText (mkRange t.stop
                (clampPosition ⟨min (d.lineCount - 1) (t.start.line + n),
                  ((d.lineTextAt (min (d.lineCount - 1) (t.start.line + n))).length : Int)⟩ d)) }) := by
      show ((getSurroundingLineRanges d t n).bind resolveSurroundingLines).run s = _
      simp only [Action.bind, hrun, resolveSurroundingLines, liftEditor, hdoc]
    exact ⟨_, hres, ⟨_, _, rfl⟩, ⟨_, _, rfl⟩, ⟨_, _, rfl⟩⟩

/-- Witness for C7: the specification's clamping example — requesting 1000
surrounding lines around a target near the top of a 20-line document. -/
theorem surrounding_ctx_clamped_witness :
    ({ agent := Agent.create "g" none,
       env := { mkEnv planOracle acceptAll with doc := doc20 } } : St).env.doc = doc20 ∧
    doc20.lines ≠ [] ∧
    (∃ rs : SurroundingRanges,
      (getSurroundingLineRanges doc20 ⟨⟨2, 0⟩, ⟨2, 3⟩⟩ 1000).run
          { agent := Agent.create "g" none,
            env := { mkEnv planOracle acceptAll with doc := doc20 } }
        = ({ agent := Agent.create "g" none,
             env := { mkEnv planOracle acceptAll with doc := doc20 } }, .success rs) ∧
      rs.before.start = ⟨max 0 ((2 : Int) - 1000), 0⟩ ∧
      0 ≤ rs.before.start.line ∧
      rs.after.stop.line ≤ doc20.lineCount - 1 ∧
      ∃ res : SurroundingText,
        (getSurroundingLines doc20 ⟨⟨2, 0⟩, ⟨2, 3⟩⟩ 1000).run
            { agent := Agent.create "g" none,
              env := { mkEnv planOracle acceptAll with doc := doc20 } }
          = ({ agent := Agent.create "g" none,
               env := { mkEnv planOracle acceptAll with doc := doc20 } }, .success res) ∧
        (∃ i j, res.before = String.mk (extractChars (joinLines doc20.lines) i j)) ∧
        (∃ i j, res.target = String.mk (extractChars (joinLines doc20.lines) i j)) ∧
        (∃ i j, res.after = String.mk (extractChars (joinLines doc20.lines) i j))) :=
  ⟨rfl, by simp [doc20],
   surrounding_ctx_clamped _ doc20 ⟨⟨2, 0⟩, ⟨2, 3⟩⟩ 1000 rfl (by simp [doc20]) (by norm_num)
     (by norm_num) (by norm_num)
     (by simp [doc20, TextDocument.lineCount])
     (by simp [doc20, TextDocument.lineCount])⟩

/-- Witness for C10 at a concrete toolkit member: the wire form of the
`directory_ctx` tool as the toolkit carries it has no examples. -/
theorem derived_tools_drop_examples_witness :
    (((dirCtxTool.toWire decodeUnit Value.str).map
        (fun val => (⟨.intermediate, val⟩ : Step Value))).examples = []) ∧
    (((dirCtxTool.toWire decodeUnit Value.str).map
        (fun val => (⟨.intermediate, val⟩ : Step Value))).descriptionWithExamples
      = [dirCtxTool.description, "", "Examples:"]) := by
  have h := (derived_tools_drop_examples (dirCtxTool.toWire decodeUnit Value.str)
      (fun val => (⟨StepType.intermediate, val⟩ : Step Value)) (fun _ s => s) none).2.2.2.2
      ((dirCtxTool.toWire decodeUnit Value.str).map
        (fun val => (⟨StepType.intermediate, val⟩ : Step Value)))
      (by simp [Agent.toolkit, Agent.stepMap])
  exact ⟨h.1, h.2⟩

/-- Helper: once the round counter has reached the ceiling, `Agent.step`
increments it once more and fails with "Max rounds reached" — without
building a prompt, calling the model, or dispatching any tool (the state is
otherwise untouched). -/
theorem step_run_budget_exceeded (s : St) (h : s.agent.maxRounds ≤ s.agent.rounds) :
    Agent.step.run s
      = ({ s with agent := { s.agent with rounds := s.agent.rounds + 1 } },
         .failure "Max rounds reached") := by
  simp (disch := omega) only [Agent.step, Agent.roundCheck, Action.pure, Action.bind,
    Action.sideEffect, if_pos]

/-- Helper: a full `Agent.step` under a round budget that is not yet
exhausted, against a model that picks `setPlan` (an Intermediate tool) and
a user who approves both interactive gates: the round counter and the
model-call counter advance by one, two input-box answers are consumed, the
two approval buffers are shown, the plan is overwritten, and the dispatch
outcome is recorded in the history. -/
theorem step_run_dispatch_success (g : String) (r m : Nat) (hist : List Message)
    (plan : String) (doc : TextDocument) (cur : Pos) (lid : String)
    (od : String → List String) (fs : String → List SymbolInfo)
    (ra : String → Pos → List Location) (mn : Pos) (dg : List Diagnostic)
    (ic mc : Nat) (rb : List String) (hr : r < m) :
    Agent.step.run
        ⟨⟨g, r, m, hist, plan⟩,
         ⟨doc, cur, lid, noResolvers, od, fs, ra, mn, dg, acceptAll, ic, planOracle, mc, rb⟩⟩
      = (⟨⟨g, r + 1, m, hist ++ [setPlanHistoryMsg], "step one"⟩,
          ⟨doc, cur, lid, noResolvers, od, fs, ra, mn, dg, acceptAll, ic + 2, planOracle,
           mc + 1, rb ++ [setPlanInputBuf] ++ [setPlanOutputBuf]⟩⟩,
         .success setPlanDecision) := by
  have hrc : Agent.roundCheck.run
      ⟨⟨g, r, m, hist, plan⟩,
       ⟨doc, cur, lid, noResolvers, od, fs, ra, mn, dg, acceptAll, ic, planOracle, mc, rb⟩⟩
      = (⟨⟨g, r + 1, m, hist, plan⟩,
          ⟨doc, cur, lid, noResolvers, od, fs, ra, mn, dg, acceptAll, ic, planOracle, mc, rb⟩⟩,
         .success ()) := by
    simp (disch := omega) only [Agent.roundCheck, if_neg]
  unfold Agent.step
  simp only [Action.bind, Action.pure, Action.sideEffect]
  rw [hrc]
  rfl

/-- Helper: a full `Agent.step` within budget, against a model that picks
`setPlan` but a user who dismisses the input-approval gate: the dispatched
tool's effect resolves to `Cancelled` before the tool runs, the plan is not
touched, and — because `sideEffect` is skipped on cancellation — nothing is
recorded in the history.  One model call and one dismissed input box were
consumed. -/
theorem step_run_dispatch_cancelled (g : String) (r m : Nat) (hist : List Message)
    (plan : String) (doc : TextDocument) (cur : Pos) (lid : String)
    (od : String → List String) (fs : String → List SymbolInfo)
    (ra : String → Pos → List Location) (mn : Pos) (dg : List Diagnostic)
    (ic mc : Nat) (rb : List String) (hr : r < m) :
    Agent.step.run
        ⟨⟨g, r, m, hist, plan⟩,
         ⟨doc, cur, lid, noResolvers, od, fs, ra, mn, dg, rejectAll, ic, planOracle, mc, rb⟩⟩
      = (⟨⟨g, r + 1, m, hist, plan⟩,
          ⟨doc, cur, lid, noResolvers, od, fs, ra, mn, dg, rejectAll, ic + 1, planOracle,
           mc + 1, rb ++ [setPlanInputBuf]⟩⟩,
         .cancelled) := by
  have hrc : Agent.roundCheck.run
      ⟨⟨g, r, m, hist, plan⟩,
       ⟨doc, cur, lid, noResolvers, od, fs, ra, mn, dg, rejectAll, ic, planOracle, mc, rb⟩⟩
      = (⟨⟨g, r + 1, m, hist, plan⟩,
          ⟨doc, cur, lid, noResolvers, od, fs, ra, mn, dg, rejectAll, ic, planOracle, mc, rb⟩⟩,
         .success ()) := by
    simp (disch := omega) only [Agent.roundCheck, if_neg]
  unfold Agent.step
  simp only [Action.bind, Action.pure, Action.sideEffect]
  rw [hrc]
  rfl

/-- Helper: with the `planOracle`/`acceptAll` environment, `Agent.recurse`
started `k` rounds below the ceiling runs `k` successful dispatches and
then fails with "Max rounds reached" on the next attempt, having consumed
exactly `k` model calls. -/
theorem recurse_exhausts_budget (k : Nat) :
    ∀ (g : String) (r m : Nat) (hist : List Message) (plan : String)
      (doc : TextDocument) (cur : Pos) (lid : String)
      (od : String → List String) (fs : String → List SymbolInfo)
      (ra : String → Pos → List Location) (mn : Pos) (dg : List Diagnostic)
      (ic mc : Nat) (rb : List String), r + k = m →
      ∃ (hist' : List Message) (plan' : String) (ic' : Nat) (rb' : List String),
        (Agent.recurse (k + 1)).run
            ⟨⟨g, r, m, hist, plan⟩,
             ⟨doc, cur, lid, noResolvers, od, fs, ra, mn, dg, acceptAll, ic, planOracle, mc, rb⟩⟩
          = (⟨⟨g, m + 1, m, hist', plan'⟩,
              ⟨doc, cur, lid, noResolvers, od, fs, ra, mn, dg, acceptAll, ic', planOracle,
               mc + k, rb'⟩⟩,
             .failure "Max rounds reached") := by
  induction k with
  | zero =>
    intro g r m hist plan doc cur lid od fs ra mn dg ic mc rb hk
    refine ⟨hist, plan, ic, rb, ?_⟩
    have hstep := step_run_budget_exceeded
      ⟨⟨g, r, m, hist, plan⟩,
       ⟨doc, cur, lid, noResolvers, od, fs, ra, mn, dg, acceptAll, ic, planOracle, mc, rb⟩⟩
      (by simp; omega)
    show ((Agent.step.map _).bind _).run _ = _
    simp only [Action.bind, Action.map, hstep]
    subst hk
    rfl
  | succ k ih =>
    intro g r m hist plan doc cur lid od fs ra mn dg ic mc rb hk
    have hstep := step_run_dispatch_success g r m hist plan doc cur lid od fs ra mn dg ic mc rb
      (by omega)
    obtain ⟨hist', plan', ic', rb', hrec⟩ :=
      ih g (r + 1) m (hist ++ [setPlanHistoryMsg]) "step one" doc cur lid od fs ra mn dg
        (ic + 2) (mc + 1) (rb ++ [setPlanInputBuf] ++ [setPlanOutputBuf]) (by omega)
    refine ⟨hist', plan', ic', rb', ?_⟩
    show ((Agent.step.map _).bind _).run _ = _
    simp only [Action.bind, Action.map, hstep]
    have harith : mc + 1 + k = mc + (k + 1) := by omega
    rw [harith] at hrec
    exact hrec

/-- **C4.** For every goal and every round ceiling `maxRounds`, an agent
whose dispatches never produce a `Finished` envelope (here: the model
always selects the Intermediate `setPlan` tool and the user approves every
gate) proceeds normally through dispatch attempts 1 … `maxRounds` — each
one reaching the model, as the model-call counter records — and the run
then fails with "Max rounds reached" exactly on dispatch attempt
`maxRounds + 1`, before any model call or tool dispatch happens in that
round: the final model-call count is exactly `maxRounds` more than at the
start, and the round counter stands at `maxRounds + 1`. -/
theorem agent_round_budget (g : String) (m : Nat) (doc : TextDocument) (cur : Pos)
    (lid : String) (od : String → List String) (fs : String → List SymbolInfo)
    (ra : String → Pos → List Location) (mn : Pos) (dg : List Diagnostic)
    (ic mc : Nat) (rb : List String) :
    ∃ (hist' : List Message) (plan' : String) (ic' : Nat) (rb' : List String),
      (Agent.recurse (m + 1)).run
          ⟨⟨g, 0, m, [], ""⟩,
           ⟨doc, cur, lid, noResolvers, od, fs, ra, mn, dg, acceptAll, ic, planOracle, mc, rb⟩⟩
        = (⟨⟨g, m + 1, m, hist', plan'⟩,
            ⟨doc, cur, lid, noResolvers, od, fs, ra, mn, dg, acceptAll, ic', planOracle,
             mc + m, rb'⟩⟩,
           .failure "Max rounds reached") :=
  recurse_exhausts_budget m g 0 m [] "" doc cur lid od fs ra mn dg ic mc rb (by omega)

/-- **C5 (amended).** When the user cancels at an interactive approval gate
during a round, the cancellation propagates: the `Cancelled` outcome of
`Agent.step` short-circuits the `map`/`bind` chain of `Agent.recurse`, so
the whole run's action resolves to `Cancelled` instead of recursing to the
next round, and — because the history `sideEffect` is skipped on
cancellation — no history entry records what was attempted (the round and
model-call counters do record the aborted attempt). -/
theorem approval_cancellation_ends_run :
    (∀ (fuel : Nat) (s s₁ : St), Agent.step.run s = (s₁, .cancelled) →
      (Agent.recurse (fuel + 1)).run s = (s₁, .cancelled)) ∧
    (∀ (g : String) (r m : Nat) (hist : List Message) (plan : String)
      (doc : TextDocument) (cur : Pos) (lid : String)
      (od : String → List String) (fs : String → List SymbolInfo)
      (ra : String → Pos → List Location) (mn : Pos) (dg : List Diagnostic)
      (ic mc : Nat) (rb : List String), r < m →
      Agent.step.run
          ⟨⟨g, r, m, hist, plan⟩,
           ⟨doc, cur, lid, noResolvers, od, fs, ra, mn, dg, rejectAll, ic, planOracle, mc, rb⟩⟩
        = (⟨⟨g, r + 1, m, hist, plan⟩,
            ⟨doc, cur, lid, noResolvers, od, fs, ra, mn, dg, rejectAll, ic + 1, planOracle,
             mc + 1, rb ++ [setPlanInputBuf]⟩⟩,
           .cancelled)) := by
  constructor
  · intro fuel s s₁ h
    show ((Agent.step.map _).bind _).run s = _
    simp only [Action.bind, Action.map, h]
  · intro g r m hist plan doc cur lid od fs ra mn dg ic mc rb hr
    exact step_run_dispatch_cancelled g r m hist plan doc cur lid od fs ra mn dg ic mc rb hr

/-- Witness for the amended C5: a fresh agent (default-style ceiling 8)
whose model picks `setPlan` but whose user dismisses the input-approval
box: the whole run resolves to `Cancelled` after round 1 — one model call,
one dismissed input box, empty history. -/
theorem approval_cancellation_ends_run_witness :
    (Agent.recurse 9).run (mkSt "goal" 8 planOracle rejectAll)
      = (⟨⟨"goal", 0 + 1, 8, [], ""⟩,
          ⟨sampleDoc, ⟨0, 0⟩, "typescript", noResolvers, fun _ => sampleDoc.lines,
           fun _ => [], fun _ _ => [], ⟨0, 0⟩, [], rejectAll, 0 + 1, planOracle, 0 + 1,
           [] ++ [setPlanInputBuf]⟩⟩,
         .cancelled) :=
  approval_cancellation_ends_run.1 8 _ _
    (approval_cancellation_ends_run.2 "goal" 0 8 [] "" sampleDoc ⟨0, 0⟩ "typescript"
      (fun _ => sampleDoc.lines) (fun _ => []) (fun _ _ => []) ⟨0, 0⟩ [] 0 0 []
      (by norm_num))

/-- **C5 (counterexample to the claim as stated).** At a concrete run where
the user cancels the very first approval gate, the code does NOT recurse to
the next round and does NOT record the attempt: the whole run's action
resolves to `Cancelled` after round 1, with exactly one model call made and
the message history still empty — contradicting the claim that only the
current tool's effect ends, that the loop recurses to the next round, and
that the history records what was attempted. -/
theorem approval_cancellation_claim_counterexample :
    ((Agent.recurse 9).run (mkSt "goal" 8 planOracle rejectAll)).2 = .cancelled ∧
    ((Agent.recurse 9).run (mkSt "goal" 8 planOracle rejectAll)).1.agent.rounds = 1 ∧
    ((Agent.recurse 9).run (mkSt "goal" 8 planOracle rejectAll)).1.agent.messageHistory = [] ∧
    ((Agent.recurse 9).run (mkSt "goal" 8 planOracle rejectAll)).1.env.modelCalls = 1 :=
  ⟨rfl, rfl, rfl, rfl⟩

end Claudette
